import Mathlib

/-!
Shallow embedding of the Product CRUD REST API
(src/router.ts and src/handlers/products.ts).

The repository's handlers fetch, mutate and persist `Product` rows through
an ORM.  Storage is embedded as an explicit list of products threaded
through every handler; each handler is a pure function from its inputs and
the storage state to a new state and an HTTP response.
-/

namespace ProductApi

/-- Modelled from the spec: the ORM model definition
(src/models/Product.model.ts) is not under src/.  Section 3 of the spec:
`id` integer primary key, system-generated; `name` string; `price` number;
`availability` boolean, defaults true. -/
structure Product where
  id : Int
  name : String
  price : ℚ
  availability : Bool
deriving Repr, DecidableEq

/-- Modelled from the spec: the database behind the ORM is an opaque
persistence service (spec section 6).  It is embedded as the list of stored
rows plus the auto-increment counter that generates the next primary key. -/
structure State where
  products : List Product
  nextId : Int
deriving Repr, DecidableEq

/-- A JSON request body as the handlers see it.  A field is `none` when it
is absent from the body (or has an unusable type) and `some v` when it is
present with value `v`. -/
structure RawBody where
  name : Option String
  price : Option ℚ
  availability : Option Bool
deriving Repr, DecidableEq

/-- A request to one of the `/:id` routes: the raw `id` path parameter
(a string in express) together with the JSON body. -/
structure IdReq where
  idParam : String
  body : RawBody
deriving Repr, DecidableEq

/-- The JSON value a handler responds with. -/
inductive RespBody where
  /-- `{data: product}` -/
  | productData (p : Product)
  /-- `{data: [...]}` -/
  | productList (l : List Product)
  /-- `{error: msg}` -/
  | errorMsg (msg : String)
  /-- `{data: msg}` -/
  | message (msg : String)
  /-- `{errors: [...]}` produced by the validation middleware -/
  | validationErrors (msgs : List String)
deriving Repr, DecidableEq

/-- An HTTP response: status code and JSON body. -/
structure Response where
  status : Nat
  body : RespBody
deriving Repr, DecidableEq

/-- The 404 response every handler sends when `findByPk` comes back empty
(src/handlers/products.ts). -/
def notFoundResp : Response := ⟨404, .errorMsg "Producto no Encontrado"⟩

/-- `Product.findByPk id`: look the row up by primary key. -/
def findByPk (s : State) (i : Int) : Option Product :=
  s.products.find? (fun p => p.id == i)

/-- `Product.findAll({order: [['id','DESC']]})`: all rows ordered by `id`
descending. -/
def findAll (s : State) : List Product :=
  s.products.mergeSort (fun a b => b.id ≤ a.id)

/-- Handler `getProducts`: `findAll` ordered by id descending, wrapped in
`{data: ...}` with the (implicit) 200 status. -/
def getProducts (s : State) : Response :=
  ⟨200, .productList (findAll s)⟩

/-- Handler `getProductsById`: `findByPk`, 404 `{error:"Producto no
Encontrado"}` when absent, else 200 `{data: product}`. -/
def getProductsById (i : Int) (s : State) : Response :=
  match findByPk s i with
  | none => notFoundResp
  | some p => ⟨200, .productData p⟩

/-- Handler `createProduct`: `Product.create(req.body)` then 201
`{data: product}`.  Modelled from the spec for the parts the missing model
file decides: the id is system-generated (the auto-increment counter) and
`availability` defaults to true; the caller supplies `name`/`price`
(spec sections 3 and 6).  The handler runs after validation, which
guarantees both fields are present; the `getD` defaults are dead code. -/
def createProduct (b : RawBody) (s : State) : State × Response :=
  let p : Product := ⟨s.nextId, b.name.getD "", b.price.getD 0, true⟩
  ({ products := s.products ++ [p], nextId := s.nextId + 1 }, ⟨201, .productData p⟩)

/-- Persisting a mutated instance: the row whose primary key is `i` is
replaced by the mutated row, every other row is untouched. -/
def replaceById (l : List Product) (i : Int) (p' : Product) : List Product :=
  l.map (fun q => if q.id == i then p' else q)

/-- Handler `updateProduct`: `findByPk`, 404 when absent, else
`products.update(req.body)` followed by `products.save()` and 200
`{data: product}`.  `update` overwrites exactly the attributes present in
the body (an absent field keeps its stored value), and the persisted row
replaces the fetched instance. -/
def updateProduct (i : Int) (b : RawBody) (s : State) : State × Response :=
  match findByPk s i with
  | none => (s, notFoundResp)
  | some p =>
    let p' : Product :=
      { p with
        name := b.name.getD p.name
        price := b.price.getD p.price
        availability := b.availability.getD p.availability }
    ({ s with products := replaceById s.products i p' }, ⟨200, .productData p'⟩)

/-- Handler `updateAvailability`: `findByPk`, 404 when absent, else
`products.availability = !products.dataValues.availability`, `save()`, and
200 `{data: product}`.  The request body is never read. -/
def updateAvailability (i : Int) (s : State) : State × Response :=
  match findByPk s i with
  | none => (s, notFoundResp)
  | some p =>
    let p' : Product := { p with availability := !p.availability }
    ({ s with products := replaceById s.products i p' }, ⟨200, .productData p'⟩)

/-- Handler `deleteProduct`: `findByPk`, 404 when absent, else
`products.destroy()` and 200 `{data:"Producto Eliminado"}`. -/
def deleteProduct (i : Int) (s : State) : State × Response :=
  match findByPk s i with
  | none => (s, notFoundResp)
  | some _ =>
    ({ s with products := s.products.filter (fun p => !(p.id == i)) },
     ⟨200, .message "Producto Eliminado"⟩)

/-! Validation layer (src/router.ts rule chains). -/

/-- One declarative validation rule: a predicate on the request and the
human-readable message attached with `withMessage`. -/
structure Rule (ρ : Type) where
  check : ρ → Bool
  message : String

/-- `param('id').isInt()` (validator.js `isInt` with default options):
an optional sign followed by one or more digits. -/
def isIntString (str : String) : Bool :=
  match str.data with
  | [] => false
  | c :: cs =>
    if c = '+' ∨ c = '-' then !cs.isEmpty && cs.all Char.isDigit
    else (c :: cs).all Char.isDigit

/-- `.notEmpty()` on a body string field: present and non-empty. -/
def notEmptyStr (v : Option String) : Bool :=
  match v with
  | some str => !str.isEmpty
  | none => false

/-- `.isNumeric()` on the price field: present as a number. -/
def isNumericQ (v : Option ℚ) : Bool := v.isSome

/-- `.notEmpty()` on the price field: present. -/
def notEmptyQ (v : Option ℚ) : Bool := v.isSome

/-- `.custom(value => value > 0)` on the price field. -/
def positiveQ (v : Option ℚ) : Bool :=
  match v with
  | some q => decide (0 < q)
  | none => false

/-- `.isBoolean()` on the availability field: present as a boolean. -/
def isBooleanB (v : Option Bool) : Bool := v.isSome

/-- The messages of the rules that fail on a request, in declaration
order. -/
def failingMessages {ρ : Type} (rules : List (Rule ρ)) (req : ρ) : List String :=
  (rules.filter (fun r => !r.check req)).map (fun r => r.message)

/-- Modelled from the spec: the `handleInputErrors` middleware
(src/middleware) is not under src/.  Spec section 4.1: evaluate all rules;
if one or more fail, respond 400 with a body enumerating every failing
rule's message; otherwise invoke the next stage with the request
unchanged. -/
def handleInputErrors {ρ : Type} (rules : List (Rule ρ))
    (next : ρ → State → State × Response) (req : ρ) (s : State) :
    State × Response :=
  let msgs := failingMessages rules req
  if msgs.isEmpty then next req s
  else (s, ⟨400, .validationErrors msgs⟩)

/-- The handlers receive `req.params.id` as a string; the ORM compares it
to the integer primary key.  After validation the string always parses;
the fallback value is dead code. -/
def parseId (str : String) : Int :=
  str.toInt?.getD 0

/-- `param('id').isInt().withMessage('ID no valido')`. -/
def idRule : Rule IdReq :=
  ⟨fun r => isIntString r.idParam, "ID no valido"⟩

/-- `body('name').notEmpty()` rule as used on PUT /:id. -/
def nameRulePut : Rule IdReq :=
  ⟨fun r => notEmptyStr r.body.name, "El nombre del Producto no puede ir vacio"⟩

/-- `body('price').isNumeric()` rule as used on PUT /:id. -/
def priceNumericRulePut : Rule IdReq :=
  ⟨fun r => isNumericQ r.body.price, "Valor no válido"⟩

/-- `body('price').notEmpty()` rule as used on PUT /:id. -/
def priceNotEmptyRulePut : Rule IdReq :=
  ⟨fun r => notEmptyQ r.body.price, "El precio del Producto no puede ir vacio"⟩

/-- `body('price').custom(value => value > 0)` rule as used on PUT /:id. -/
def pricePositiveRulePut : Rule IdReq :=
  ⟨fun r => positiveQ r.body.price, "Precio no valido"⟩

/-- `body('availability').isBoolean()` rule on PUT /:id. -/
def availabilityRulePut : Rule IdReq :=
  ⟨fun r => isBooleanB r.body.availability, "Valor para disponibilidad no válido"⟩

/-- `body('name').notEmpty()` rule as used on POST /. -/
def nameRulePost : Rule RawBody :=
  ⟨fun b => notEmptyStr b.name, "El nombre del Producto no puede ir vacio"⟩

/-- `body('price').isNumeric()` rule as used on POST /. -/
def priceNumericRulePost : Rule RawBody :=
  ⟨fun b => isNumericQ b.price, "Valor no válido"⟩

/-- `body('price').notEmpty()` rule as used on POST /. -/
def priceNotEmptyRulePost : Rule RawBody :=
  ⟨fun b => notEmptyQ b.price, "El precio del Producto no puede ir vacio"⟩

/-- `body('price').custom(value => value > 0)` rule as used on POST /. -/
def pricePositiveRulePost : Rule RawBody :=
  ⟨fun b => positiveQ b.price, "Precio no valido"⟩

/-- Rule chain of `router.get('/:id', ...)`. -/
def getByIdRules : List (Rule IdReq) := [idRule]

/-- Rule chain of `router.post('/', ...)`. -/
def postRules : List (Rule RawBody) :=
  [nameRulePost, priceNumericRulePost, priceNotEmptyRulePost, pricePositiveRulePost]

/-- Rule chain of `router.put('/:id', ...)`. -/
def putRules : List (Rule IdReq) :=
  [idRule, nameRulePut, priceNumericRulePut, priceNotEmptyRulePut,
   pricePositiveRulePut, availabilityRulePut]

/-- Rule chain of `router.patch('/:id', ...)`. -/
def patchRules : List (Rule IdReq) := [idRule]

/-- Rule chain of `router.delete('/:id', ...)`. -/
def deleteRules : List (Rule IdReq) := [idRule]

/-- `router.get('/:id', param('id').isInt()..., handleInputErrors,
getProductsById)`. -/
def getByIdRoute (r : IdReq) (s : State) : State × Response :=
  handleInputErrors getByIdRules
    (fun r s => (s, getProductsById (parseId r.idParam) s)) r s

/-- `router.post('/', ..., handleInputErrors, createProduct)`. -/
def postRoute (b : RawBody) (s : State) : State × Response :=
  handleInputErrors postRules (fun b s => createProduct b s) b s

/-- `router.put('/:id', ..., handleInputErrors, updateProduct)`. -/
def putRoute (r : IdReq) (s : State) : State × Response :=
  handleInputErrors putRules
    (fun r s => updateProduct (parseId r.idParam) r.body s) r s

/-- `router.patch('/:id', param('id').isInt()..., handleInputErrors,
updateAvailability)`.  The handler never reads the body. -/
def patchRoute (r : IdReq) (s : State) : State × Response :=
  handleInputErrors patchRules
    (fun r s => updateAvailability (parseId r.idParam) s) r s

/-- `router.delete('/:id', param('id').isInt()..., handleInputErrors,
deleteProduct)`. -/
def deleteRoute (r : IdReq) (s : State) : State × Response :=
  handleInputErrors deleteRules
    (fun r s => deleteProduct (parseId r.idParam) s) r s

/-- One incoming HTTP request to the router. -/
inductive Req where
  | list
  | getById (r : IdReq)
  | create (b : RawBody)
  | update (r : IdReq)
  | patch (r : IdReq)
  | delete (r : IdReq)
deriving Repr, DecidableEq

/-- Dispatch one request through its route (validation then handler). -/
def applyReq (s : State) (r : Req) : State × Response :=
  match r with
  | .list => (s, getProducts s)
  | .getById r => getByIdRoute r s
  | .create b => postRoute b s
  | .update r => putRoute r s
  | .patch r => patchRoute r s
  | .delete r => deleteRoute r s

/-- Run a sequence of requests, keeping only the storage state. -/
def execReqs (s : State) (rs : List Req) : State :=
  rs.foldl (fun s r => (applyReq s r).1) s

/-- Every stored row has a positive price and a non-empty name
(spec section 3 invariants). -/
def Inv (s : State) : Prop :=
  ∀ p ∈ s.products, 0 < p.price ∧ p.name ≠ ""

/-- The auto-increment counter is ahead of every stored primary key, so
creation always generates a fresh id. -/
def FreshIds (s : State) : Prop :=
  ∀ p ∈ s.products, p.id < s.nextId

/-! Shared helper lemmas about the embedded ORM primitives. -/

/-- Replacing the row whose primary key is `i` does not disturb which
element `find?` selects: the lookup now returns the replacement. -/
lemma findByPk_map_replace (s : State) (i : Int) (p p' : Product)
    (h : findByPk s i = some p) (hp' : (p'.id == i) = true) :
    findByPk { s with products := replaceById s.products i p' } i = some p' := by
  have hpred :
      ((fun q : Product => q.id == i) ∘ (fun q : Product => if q.id == i then p' else q))
        = fun q : Product => q.id == i := by
    funext q
    by_cases hq : (q.id == i) = true
    · rw [Function.comp_apply, if_pos hq, hp', hq]
    · rw [Function.comp_apply, if_neg hq]
  have h0 : List.find? (fun q : Product => q.id == i) s.products = some p := h
  have hp0 := List.find?_some h0
  have hp : (p.id == i) = true := hp0
  show List.find? (fun q : Product => q.id == i)
      (s.products.map (fun q => if q.id == i then p' else q)) = some p'
  rw [List.find?_map, hpred, h0, Option.map_some', if_pos hp]

/-- A row lookup that failed keeps failing on the same list. -/
lemma findByPk_filter_out (s : State) (i : Int) :
    (s.products.filter (fun p => !(p.id == i))).find? (fun p => p.id == i) = none := by
  rw [List.find?_eq_none]
  intro q hq
  have := (List.mem_filter.mp hq).2
  simpa using this

/-- The row `findByPk` returns carries the requested primary key. -/
lemma findByPk_id (s : State) (i : Int) (p : Product)
    (h : findByPk s i = some p) : (p.id == i) = true := by
  have h0 : List.find? (fun q : Product => q.id == i) s.products = some p := h
  have hp0 := List.find?_some h0
  exact hp0

/-- Replacing the row with primary key `i` by a row with the same id keeps
the list of primary keys unchanged. -/
lemma map_id_replace (l : List Product) (i : Int) (p' : Product) (hp' : p'.id = i) :
    (replaceById l i p').map Product.id = l.map Product.id := by
  show (l.map (fun q : Product => if q.id == i then p' else q)).map Product.id
      = l.map Product.id
  rw [List.map_map]
  have hfun : (Product.id ∘ fun q : Product => if q.id == i then p' else q)
      = Product.id := by
    funext q
    by_cases hq : (q.id == i) = true
    · have hqi : q.id = i := by simpa using hq
      rw [Function.comp_apply, if_pos hq, hp', hqi]
    · rw [Function.comp_apply, if_neg hq]
  rw [hfun]

end ProductApi

namespace ProductApi

/-- C1: for every integer id that names no product in storage, each of
Get-by-id, Update (PUT), Patch-availability, and Delete responds with
HTTP status 404 and body `{error:"Producto no Encontrado"}`. -/
theorem absent_id_yields_404 (i : Int) (b : RawBody) (s : State)
    (h : findByPk s i = none) :
    getProductsById i s = notFoundResp
    ∧ updateProduct i b s = (s, notFoundResp)
    ∧ updateAvailability i s = (s, notFoundResp)
    ∧ deleteProduct i s = (s, notFoundResp)
    ∧ notFoundResp.status = 404
    ∧ notFoundResp.body = .errorMsg "Producto no Encontrado" := by
  refine ⟨?_, ?_, ?_, ?_, rfl, rfl⟩ <;>
    simp [getProductsById, updateProduct, updateAvailability, deleteProduct, h]

/-- Witness for C1 at the empty storage state and id 1. -/
theorem absent_id_yields_404_witness :
    getProductsById 1 ⟨[], 1⟩ = notFoundResp
    ∧ updateProduct 1 ⟨none, none, none⟩ ⟨[], 1⟩ = (⟨[], 1⟩, notFoundResp)
    ∧ updateAvailability 1 ⟨[], 1⟩ = (⟨[], 1⟩, notFoundResp)
    ∧ deleteProduct 1 ⟨[], 1⟩ = (⟨[], 1⟩, notFoundResp)
    ∧ notFoundResp.status = 404
    ∧ notFoundResp.body = .errorMsg "Producto no Encontrado" :=
  absent_id_yields_404 1 ⟨none, none, none⟩ ⟨[], 1⟩ (by decide)

/-- C9: when Update, Patch-availability, or Delete hits an absent id, the
handler returns the 404 before issuing any mutation: the storage state
after the response is exactly the state before the request. -/
theorem not_found_is_atomic (i : Int) (b : RawBody) (s : State)
    (h : findByPk s i = none) :
    updateProduct i b s = (s, notFoundResp)
    ∧ updateAvailability i s = (s, notFoundResp)
    ∧ deleteProduct i s = (s, notFoundResp) := by
  refine ⟨?_, ?_, ?_⟩ <;>
    simp [updateProduct, updateAvailability, deleteProduct, h]

/-- Witness for C9 at a one-row state and an id not stored. -/
theorem not_found_is_atomic_witness :
    updateProduct 7 ⟨none, none, none⟩ ⟨[⟨1, "Monitor", 300, true⟩], 2⟩
      = (⟨[⟨1, "Monitor", 300, true⟩], 2⟩, notFoundResp)
    ∧ updateAvailability 7 ⟨[⟨1, "Monitor", 300, true⟩], 2⟩
      = (⟨[⟨1, "Monitor", 300, true⟩], 2⟩, notFoundResp)
    ∧ deleteProduct 7 ⟨[⟨1, "Monitor", 300, true⟩], 2⟩
      = (⟨[⟨1, "Monitor", 300, true⟩], 2⟩, notFoundResp) :=
  not_found_is_atomic 7 ⟨none, none, none⟩ ⟨[⟨1, "Monitor", 300, true⟩], 2⟩ (by decide)

/-- Unfolding of the Patch handler on a stored row. -/
lemma updateAvailability_eq (i : Int) (s : State) (p : Product)
    (h : findByPk s i = some p) :
    updateAvailability i s
      = ({ s with products :=
            replaceById s.products i { p with availability := !p.availability } },
         ⟨200, .productData { p with availability := !p.availability }⟩) := by
  simp only [updateAvailability, h]

/-- C2: one Patch on a stored product responds with its availability
negated, and a second Patch on the same product restores the original
availability value (both in the response and in storage). -/
theorem patch_toggles_twice_restores (i : Int) (s : State) (p : Product)
    (h : findByPk s i = some p) :
    (updateAvailability i s).2
      = ⟨200, .productData { p with availability := !p.availability }⟩
    ∧ findByPk (updateAvailability i s).1 i
      = some { p with availability := !p.availability }
    ∧ (updateAvailability i (updateAvailability i s).1).2 = ⟨200, .productData p⟩
    ∧ findByPk (updateAvailability i (updateAvailability i s).1).1 i = some p := by
  have hp := findByPk_id s i p h
  have hstep := updateAvailability_eq i s p h
  have h1 : findByPk (updateAvailability i s).1 i
      = some { p with availability := !p.availability } := by
    rw [hstep]
    exact findByPk_map_replace s i p _ h hp
  have hstep2 : updateAvailability i (updateAvailability i s).1
      = ({ (updateAvailability i s).1 with
            products := replaceById (updateAvailability i s).1.products i
              { p with availability := !(!p.availability) } },
         ⟨200, .productData { p with availability := !(!p.availability) }⟩) :=
    updateAvailability_eq i (updateAvailability i s).1 _ h1
  have h2 : findByPk (updateAvailability i (updateAvailability i s).1).1 i
      = some { p with availability := !(!p.availability) } := by
    rw [hstep2]
    exact findByPk_map_replace (updateAvailability i s).1 i _ _ h1 hp
  refine ⟨by rw [hstep], h1, ?_, ?_⟩
  · rw [hstep2]
    simp [Bool.not_not]
  · rw [h2]
    simp [Bool.not_not]

/-- Witness for C2 at a one-row state. -/
theorem patch_toggles_twice_restores_witness :
    (updateAvailability 1 ⟨[⟨1, "Monitor", 300, true⟩], 2⟩).2
      = ⟨200, .productData ⟨1, "Monitor", 300, false⟩⟩
    ∧ findByPk (updateAvailability 1 ⟨[⟨1, "Monitor", 300, true⟩], 2⟩).1 1
      = some ⟨1, "Monitor", 300, false⟩
    ∧ (updateAvailability 1
        (updateAvailability 1 ⟨[⟨1, "Monitor", 300, true⟩], 2⟩).1).2
      = ⟨200, .productData ⟨1, "Monitor", 300, true⟩⟩
    ∧ findByPk (updateAvailability 1
        (updateAvailability 1 ⟨[⟨1, "Monitor", 300, true⟩], 2⟩).1).1 1
      = some ⟨1, "Monitor", 300, true⟩ :=
  patch_toggles_twice_restores 1 ⟨[⟨1, "Monitor", 300, true⟩], 2⟩
    ⟨1, "Monitor", 300, true⟩ (by decide)

/-- C10: the Patch route never reads the request body — two Patch requests
differing only in their bodies produce identical results — and on a stored
product it changes availability alone: id, name and price keep their
stored values, and rows with other ids are untouched. -/
theorem patch_ignores_body_frame (idP : String) (b₁ b₂ : RawBody)
    (i : Int) (s : State) (p : Product)
    (h : findByPk s i = some p) :
    patchRoute ⟨idP, b₁⟩ s = patchRoute ⟨idP, b₂⟩ s
    ∧ (updateAvailability i s).2
        = ⟨200, .productData ⟨p.id, p.name, p.price, !p.availability⟩⟩
    ∧ findByPk (updateAvailability i s).1 i
        = some ⟨p.id, p.name, p.price, !p.availability⟩
    ∧ ∀ q, q ∈ s.products → ¬q.id = i →
        q ∈ (updateAvailability i s).1.products := by
  have hp := findByPk_id s i p h
  have hstep : updateAvailability i s
      = ({ s with products :=
            replaceById s.products i { p with availability := !p.availability } },
         ⟨200, .productData { p with availability := !p.availability }⟩) := by
    simp only [updateAvailability, h]
  refine ⟨rfl, by rw [hstep], ?_, ?_⟩
  · rw [hstep]
    exact findByPk_map_replace s i p _ h hp
  · intro q hq hqi
    rw [hstep]
    show q ∈ s.products.map
      (fun r : Product => if r.id == i then { p with availability := !p.availability } else r)
    refine List.mem_map.mpr ⟨q, hq, ?_⟩
    rw [if_neg (by simpa using hqi)]

/-- Witness for C10 at a two-row state. -/
theorem patch_ignores_body_frame_witness :
    patchRoute ⟨"1", ⟨some "x", some 5, some true⟩⟩
        ⟨[⟨2, "Tablet", 150, true⟩, ⟨1, "Monitor", 300, true⟩], 3⟩
      = patchRoute ⟨"1", ⟨none, none, none⟩⟩
        ⟨[⟨2, "Tablet", 150, true⟩, ⟨1, "Monitor", 300, true⟩], 3⟩
    ∧ (updateAvailability 1 ⟨[⟨2, "Tablet", 150, true⟩, ⟨1, "Monitor", 300, true⟩], 3⟩).2
      = ⟨200, .productData ⟨1, "Monitor", 300, false⟩⟩
    ∧ findByPk
        (updateAvailability 1 ⟨[⟨2, "Tablet", 150, true⟩, ⟨1, "Monitor", 300, true⟩], 3⟩).1 1
      = some ⟨1, "Monitor", 300, false⟩
    ∧ ∀ q, q ∈ [⟨2, "Tablet", 150, true⟩, (⟨1, "Monitor", 300, true⟩ : Product)] →
        ¬q.id = 1 →
        q ∈ (updateAvailability 1
          ⟨[⟨2, "Tablet", 150, true⟩, ⟨1, "Monitor", 300, true⟩], 3⟩).1.products :=
  patch_ignores_body_frame "1" ⟨some "x", some 5, some true⟩ ⟨none, none, none⟩
    1 ⟨[⟨2, "Tablet", 150, true⟩, ⟨1, "Monitor", 300, true⟩], 3⟩
    ⟨1, "Monitor", 300, true⟩ (by decide)

/-- C8: Delete on a stored product responds 200 with body
`{data:"Producto Eliminado"}`, the row is removed, and a subsequent
Get-by-id on the same id responds 404. -/
theorem delete_then_get_404 (i : Int) (s : State) (p : Product)
    (h : findByPk s i = some p) :
    (deleteProduct i s).2 = ⟨200, .message "Producto Eliminado"⟩
    ∧ findByPk (deleteProduct i s).1 i = none
    ∧ getProductsById i (deleteProduct i s).1 = notFoundResp := by
  have hstep : deleteProduct i s
      = ({ s with products := s.products.filter (fun q => !(q.id == i)) },
         ⟨200, .message "Producto Eliminado"⟩) := by
    simp only [deleteProduct, h]
  have hnone : findByPk (deleteProduct i s).1 i = none := by
    rw [hstep]
    exact findByPk_filter_out s i
  refine ⟨by rw [hstep], hnone, ?_⟩
  simp only [getProductsById, hnone]

/-- Witness for C8 at a one-row state. -/
theorem delete_then_get_404_witness :
    (deleteProduct 1 ⟨[⟨1, "Monitor", 300, true⟩], 2⟩).2
      = ⟨200, .message "Producto Eliminado"⟩
    ∧ findByPk (deleteProduct 1 ⟨[⟨1, "Monitor", 300, true⟩], 2⟩).1 1 = none
    ∧ getProductsById 1 (deleteProduct 1 ⟨[⟨1, "Monitor", 300, true⟩], 2⟩).1
      = notFoundResp :=
  delete_then_get_404 1 ⟨[⟨1, "Monitor", 300, true⟩], 2⟩
    ⟨1, "Monitor", 300, true⟩ (by decide)

/-- C4: no operation changes the id of an existing product.  Update and
Patch leave the list of primary keys exactly as it was, Create only
appends the freshly generated key, and Delete only removes rows (the
survivors are the original rows, ids included). -/
theorem ids_stable_under_operations (i : Int) (b : RawBody) (s : State) :
    (updateProduct i b s).1.products.map Product.id = s.products.map Product.id
    ∧ (updateAvailability i s).1.products.map Product.id = s.products.map Product.id
    ∧ (createProduct b s).1.products.map Product.id
        = s.products.map Product.id ++ [s.nextId]
    ∧ (deleteProduct i s).1.products = s.products.filter (fun q => !(q.id == i)) := by
  refine ⟨?_, ?_, ?_, ?_⟩
  · cases hfind : findByPk s i with
    | none => simp only [updateProduct, hfind]
    | some p =>
      have hpi : p.id = i := by simpa using findByPk_id s i p hfind
      simp only [updateProduct, hfind]
      exact map_id_replace s.products i _ hpi
  · cases hfind : findByPk s i with
    | none => simp only [updateAvailability, hfind]
    | some p =>
      have hpi : p.id = i := by simpa using findByPk_id s i p hfind
      simp only [updateAvailability, hfind]
      exact map_id_replace s.products i _ hpi
  · simp [createProduct]
  · cases hfind : findByPk s i with
    | none =>
      have hall : ∀ q ∈ s.products, ¬((fun q : Product => q.id == i) q = true) :=
        List.find?_eq_none.mp hfind
      have : s.products.filter (fun q => !(q.id == i)) = s.products := by
        apply List.filter_eq_self.mpr
        intro q hq
        have := hall q hq
        simpa using this
      simp only [deleteProduct, hfind, this]
    | some p => simp only [deleteProduct, hfind]

/-- C7: List responds 200 with `{data: [...]}` holding every stored
product (a permutation of storage) ordered by id descending. -/
theorem list_returns_all_sorted_desc (s : State) :
    (getProducts s).status = 200
    ∧ (getProducts s).body = .productList (findAll s)
    ∧ List.Perm (findAll s) s.products
    ∧ (findAll s).Pairwise (fun a b => b.id ≤ a.id) := by
  refine ⟨rfl, rfl, List.mergeSort_perm s.products _, ?_⟩
  have htrans : ∀ a b c : Product,
      (fun a b : Product => decide (b.id ≤ a.id)) a b = true →
      (fun a b : Product => decide (b.id ≤ a.id)) b c = true →
      (fun a b : Product => decide (b.id ≤ a.id)) a c = true := by
    intro a b c hab hbc
    exact decide_eq_true (le_trans (of_decide_eq_true hbc) (of_decide_eq_true hab))
  have htotal : ∀ a b : Product,
      ((fun a b : Product => decide (b.id ≤ a.id)) a b
        || (fun a b : Product => decide (b.id ≤ a.id)) b a) = true := by
    intro a b
    rcases le_total a.id b.id with hle | hle <;> simp [hle]
  have hsorted := @List.sorted_mergeSort Product
    (fun a b : Product => decide (b.id ≤ a.id)) htrans htotal s.products
  exact hsorted.imp (fun hab => of_decide_eq_true hab)

/-! Helper lemmas about the validation layer. -/

/-- When no rule produced a message, every rule's check passed. -/
lemma checks_of_pass {ρ : Type} (rules : List (Rule ρ)) (req : ρ)
    (h : (failingMessages rules req).isEmpty = true) :
    ∀ rule ∈ rules, rule.check req = true := by
  intro rule hrule
  rw [List.isEmpty_iff] at h
  unfold failingMessages at h
  have hfil : rules.filter (fun r => !r.check req) = [] := List.map_eq_nil_iff.mp h
  have := List.filter_eq_nil_iff.mp hfil rule hrule
  simpa using this

/-- A passing `notEmpty` check on a string field means the field is
present and non-empty. -/
lemma notEmptyStr_spec (v : Option String) (h : notEmptyStr v = true) :
    ∃ n, v = some n ∧ ¬n = "" := by
  cases v with
  | none => simp [notEmptyStr] at h
  | some n =>
    refine ⟨n, rfl, fun hn => ?_⟩
    subst hn
    exact absurd h (by decide)

/-- A passing positivity check on the price field means the field is
present and positive. -/
lemma positiveQ_spec (v : Option ℚ) (h : positiveQ v = true) :
    ∃ q, v = some q ∧ 0 < q := by
  cases v with
  | none => simp [positiveQ] at h
  | some q => exact ⟨q, rfl, of_decide_eq_true h⟩

/-- No failing rule: the middleware hands the unchanged request to the
next stage. -/
lemma handleInputErrors_pass {ρ : Type} (rules : List (Rule ρ))
    (next : ρ → State → State × Response) (req : ρ) (s : State)
    (h : failingMessages rules req = []) :
    handleInputErrors rules next req s = next req s := by
  simp [handleInputErrors, h]

/-- At least one failing rule: the middleware short-circuits with a 400
response listing every failing rule's message, leaving storage alone. -/
lemma handleInputErrors_fail {ρ : Type} (rules : List (Rule ρ))
    (next : ρ → State → State × Response) (req : ρ) (s : State)
    (h : ¬failingMessages rules req = []) :
    handleInputErrors rules next req s
      = (s, ⟨400, .validationErrors (failingMessages rules req)⟩) := by
  have hfalse : (failingMessages rules req).isEmpty = false := by
    cases hcase : (failingMessages rules req).isEmpty with
    | true => exact absurd (List.isEmpty_iff.mp hcase) h
    | false => rfl
  simp [handleInputErrors, hfalse]

/-- C3: a Create that passes validation responds 201 with the supplied
name and price, availability true, under the system-generated id; a
subsequent Get-by-id with that id responds 200 with the same product. -/
theorem create_then_get_roundtrip (b : RawBody) (s : State) (n : String) (q : ℚ)
    (hfresh : FreshIds s) (_hval : failingMessages postRules b = [])
    (hn : b.name = some n) (hq : b.price = some q) :
    (createProduct b s).2 = ⟨201, .productData ⟨s.nextId, n, q, true⟩⟩
    ∧ getProductsById s.nextId (createProduct b s).1
        = ⟨200, .productData ⟨s.nextId, n, q, true⟩⟩
    ∧ (⟨s.nextId, n, q, true⟩ : Product).availability = true := by
  have hcreate : createProduct b s
      = ({ products := s.products ++ [⟨s.nextId, n, q, true⟩],
           nextId := s.nextId + 1 },
         ⟨201, .productData ⟨s.nextId, n, q, true⟩⟩) := by
    simp [createProduct, hn, hq]
  have hnone : List.find? (fun p : Product => p.id == s.nextId) s.products = none := by
    rw [List.find?_eq_none]
    intro p hp
    have hlt := hfresh p hp
    simp only [beq_iff_eq]
    intro he
    omega
  have hfind : findByPk (createProduct b s).1 s.nextId
      = some ⟨s.nextId, n, q, true⟩ := by
    rw [hcreate]
    show List.find? (fun p : Product => p.id == s.nextId)
        (s.products ++ [⟨s.nextId, n, q, true⟩]) = some ⟨s.nextId, n, q, true⟩
    rw [List.find?_append, hnone]
    simp
  refine ⟨by rw [hcreate], ?_, rfl⟩
  simp only [getProductsById, hfind]

/-- Witness for C3: creating Monitor at price 300 in the empty store. -/
theorem create_then_get_roundtrip_witness :
    (createProduct ⟨some "Monitor", some 300, none⟩ ⟨[], 1⟩).2
      = ⟨201, .productData ⟨1, "Monitor", 300, true⟩⟩
    ∧ getProductsById 1 (createProduct ⟨some "Monitor", some 300, none⟩ ⟨[], 1⟩).1
      = ⟨200, .productData ⟨1, "Monitor", 300, true⟩⟩
    ∧ (⟨1, "Monitor", 300, true⟩ : Product).availability = true :=
  create_then_get_roundtrip ⟨some "Monitor", some 300, none⟩ ⟨[], 1⟩
    "Monitor" 300 (by simp [FreshIds]) (by decide) rfl rfl

/-! Preservation of the data-model invariants (C5). -/

/-- Replacing a row by one with positive price and non-empty name keeps
the invariant. -/
lemma inv_replace (s : State) (i : Int) (p' : Product)
    (hname : ¬p'.name = "") (hprice : 0 < p'.price) (h : Inv s) :
    Inv { s with products := replaceById s.products i p' } := by
  intro r hr
  have hr' : r ∈ s.products.map (fun t : Product => if t.id == i then p' else t) := hr
  rcases List.mem_map.mp hr' with ⟨t, ht, hrt⟩
  by_cases hti : (t.id == i) = true
  · rw [if_pos hti] at hrt
    exact hrt ▸ ⟨hprice, hname⟩
  · rw [if_neg hti] at hrt
    exact hrt ▸ h t ht

/-- The Patch handler keeps the invariant: it only flips a boolean. -/
lemma inv_updateAvailability (i : Int) (s : State) (h : Inv s) :
    Inv (updateAvailability i s).1 := by
  cases hfind : findByPk s i with
  | none =>
    simp only [updateAvailability, hfind]
    exact h
  | some p =>
    rw [updateAvailability_eq i s p hfind]
    have hp := h p (List.mem_of_find?_eq_some hfind)
    exact inv_replace s i _ hp.2 hp.1 h

/-- The Update handler keeps the invariant when the body carries a
non-empty name and a positive price. -/
lemma inv_updateProduct (i : Int) (b : RawBody) (s : State)
    (n : String) (q : ℚ) (hn : b.name = some n) (hnne : ¬n = "")
    (hq : b.price = some q) (hqpos : 0 < q) (h : Inv s) :
    Inv (updateProduct i b s).1 := by
  cases hfind : findByPk s i with
  | none =>
    simp only [updateProduct, hfind]
    exact h
  | some p =>
    simp only [updateProduct, hfind, hn, hq, Option.getD_some]
    exact inv_replace s i _ hnne hqpos h

/-- The Create handler keeps the invariant when the body carries a
non-empty name and a positive price. -/
lemma inv_create (b : RawBody) (s : State)
    (n : String) (q : ℚ) (hn : b.name = some n) (hnne : ¬n = "")
    (hq : b.price = some q) (hqpos : 0 < q) (h : Inv s) :
    Inv (createProduct b s).1 := by
  simp only [createProduct, hn, hq, Option.getD_some]
  intro r hr
  rcases List.mem_append.mp hr with hr | hr
  · exact h r hr
  · have hreq : r = ⟨s.nextId, n, q, true⟩ := by simpa using hr
    exact hreq ▸ ⟨hqpos, hnne⟩

/-- The Delete handler keeps the invariant: it only removes rows. -/
lemma inv_delete (i : Int) (s : State) (h : Inv s) :
    Inv (deleteProduct i s).1 := by
  cases hfind : findByPk s i with
  | none =>
    simp only [deleteProduct, hfind]
    exact h
  | some p =>
    simp only [deleteProduct, hfind]
    intro r hr
    exact h r (List.mem_filter.mp hr).1

/-- One dispatched request (validation plus handler) keeps the
invariant. -/
lemma inv_applyReq (s : State) (r : Req) (h : Inv s) : Inv (applyReq s r).1 := by
  cases r with
  | list => exact h
  | getById rq =>
    simp only [applyReq, getByIdRoute, handleInputErrors]
    split
    · exact h
    · exact h
  | create b =>
    simp only [applyReq, postRoute, handleInputErrors]
    split
    case isTrue hm =>
      have hall := checks_of_pass postRules b hm
      obtain ⟨n, hn, hnne⟩ :=
        notEmptyStr_spec b.name (hall nameRulePost (by simp [postRules]))
      obtain ⟨q, hq, hqpos⟩ :=
        positiveQ_spec b.price (hall pricePositiveRulePost (by simp [postRules]))
      exact inv_create b s n q hn hnne hq hqpos h
    case isFalse hm => exact h
  | update rq =>
    simp only [applyReq, putRoute, handleInputErrors]
    split
    case isTrue hm =>
      have hall := checks_of_pass putRules rq hm
      obtain ⟨n, hn, hnne⟩ :=
        notEmptyStr_spec rq.body.name (hall nameRulePut (by simp [putRules]))
      obtain ⟨q, hq, hqpos⟩ :=
        positiveQ_spec rq.body.price (hall pricePositiveRulePut (by simp [putRules]))
      exact inv_updateProduct (parseId rq.idParam) rq.body s n q hn hnne hq hqpos h
    case isFalse hm => exact h
  | patch rq =>
    simp only [applyReq, patchRoute, handleInputErrors]
    split
    · exact inv_updateAvailability (parseId rq.idParam) s h
    · exact h
  | delete rq =>
    simp only [applyReq, deleteRoute, handleInputErrors]
    split
    · exact inv_delete (parseId rq.idParam) s h
    · exact h

/-- C5: starting from any state satisfying the data-model invariants,
after any sequence of requests (Create, Update, Patch, Delete, reads —
validated requests mutate, rejected ones do not), every stored product
still has a strictly positive price and a non-empty name. -/
theorem invariants_hold_after_any_requests (s : State) (rs : List Req)
    (h : Inv s) : Inv (execReqs s rs) := by
  induction rs generalizing s with
  | nil => exact h
  | cons r rs ih => exact ih (applyReq s r).1 (inv_applyReq s r h)

/-- Witness for C5: a create followed by a patch from the empty store. -/
theorem invariants_hold_after_any_requests_witness :
    Inv (execReqs ⟨[], 1⟩
      [.create ⟨some "Monitor", some 300, none⟩,
       .patch ⟨"1", ⟨none, none, none⟩⟩]) :=
  invariants_hold_after_any_requests ⟨[], 1⟩
    [.create ⟨some "Monitor", some 300, none⟩,
     .patch ⟨"1", ⟨none, none, none⟩⟩] (by simp [Inv])

/-- C6: the middleware evaluates all declared rules — if any fail it
responds 400 enumerating every failing rule's message without touching
storage or invoking the handler, otherwise it passes the unchanged
request to the handler — and every `/:id` route answers 400 to a
non-integer id path parameter. -/
theorem validation_middleware_spec :
    (∀ (ρ : Type) (rules : List (Rule ρ)) (next : ρ → State → State × Response)
        (req : ρ) (s : State),
      (failingMessages rules req = [] →
        handleInputErrors rules next req s = next req s)
      ∧ (¬failingMessages rules req = [] →
        handleInputErrors rules next req s
          = (s, ⟨400, .validationErrors (failingMessages rules req)⟩)))
    ∧ (∀ (r : IdReq) (s : State), isIntString r.idParam = false →
        getByIdRoute r s = (s, ⟨400, .validationErrors ["ID no valido"]⟩)
        ∧ patchRoute r s = (s, ⟨400, .validationErrors ["ID no valido"]⟩)
        ∧ deleteRoute r s = (s, ⟨400, .validationErrors ["ID no valido"]⟩)
        ∧ putRoute r s = (s, ⟨400, .validationErrors (failingMessages putRules r)⟩)
        ∧ "ID no valido" ∈ failingMessages putRules r) := by
  constructor
  · intro ρ rules next req s
    exact ⟨handleInputErrors_pass rules next req s,
           handleInputErrors_fail rules next req s⟩
  · intro r s h
    have hone : failingMessages getByIdRules r = ["ID no valido"] := by
      simp [failingMessages, getByIdRules, idRule, h]
    have hmem : "ID no valido" ∈ failingMessages putRules r := by
      unfold failingMessages
      refine List.mem_map.mpr ⟨idRule, ?_, rfl⟩
      refine List.mem_filter.mpr ⟨?_, ?_⟩
      · simp [putRules]
      · simp [idRule, h]
    have hput := handleInputErrors_fail putRules
      (fun r s => updateProduct (parseId r.idParam) r.body s) r s
      (List.ne_nil_of_mem hmem)
    refine ⟨?_, ?_, ?_, hput, hmem⟩
    · rw [getByIdRoute,
        handleInputErrors_fail getByIdRules _ r s (by rw [hone]; simp), hone]
    · rw [patchRoute,
        handleInputErrors_fail patchRules _ r s (by rw [show patchRules = getByIdRules from rfl, hone]; simp)]
      rw [show patchRules = getByIdRules from rfl, hone]
    · rw [deleteRoute,
        handleInputErrors_fail deleteRules _ r s (by rw [show deleteRules = getByIdRules from rfl, hone]; simp)]
      rw [show deleteRules = getByIdRules from rfl, hone]

/-- Witness for C6: the non-integer id "abc" is rejected with 400. -/
theorem validation_middleware_spec_witness :
    getByIdRoute ⟨"abc", ⟨none, none, none⟩⟩ ⟨[], 1⟩
      = (⟨[], 1⟩, ⟨400, .validationErrors ["ID no valido"]⟩) :=
  (validation_middleware_spec.2 ⟨"abc", ⟨none, none, none⟩⟩ ⟨[], 1⟩ (by decide)).1

end ProductApi
